import Mathlib

/-!
Verification of the `infomax` CUDAICA wrapper
(`mne/preprocessing/infomax_cuda_.py`) and of the Infomax ICA training core
it delegates to.

The wrapper builds a CUDAICA configuration by a fixed sequence of
`setIntParameter` / `setRealParameter` / `setStringParameter` calls, checks
it, transfers the data, runs the training, and returns the transposed
weight matrix.  The configuration is embedded as an association list with
newest-setting-first lookup; the training core (the CUDAICA `process`
routine) is not part of this repository, so it is modelled from the
specification: a Trainer state machine with an AnnealController, a
StabilityGuard, and an abstract per-epoch gradient oracle standing in for
the block-stochastic numeric work.
-/

/-- A configuration parameter value: CUDAICA parameters are integers,
reals, or strings (`setIntParameter`, `setRealParameter`,
`setStringParameter`). -/
inductive ParamValue where
  | int (i : ℤ)
  | real (r : ℝ)
  | str (s : String)

/-- A CUDAICA configuration: an association list of named parameter
values, most recent setting first. -/
def Config : Type := List (String × ParamValue)

/-- `setIntParameter cfg name v` records an integer-valued parameter. -/
def setIntParameter (cfg : Config) (name : String) (v : ℤ) : Config :=
  (name, ParamValue.int v) :: cfg

/-- `setRealParameter cfg name v` records a real-valued parameter. -/
def setRealParameter (cfg : Config) (name : String) (v : ℝ) : Config :=
  (name, ParamValue.real v) :: cfg

/-- `setStringParameter cfg name v` records a string-valued parameter. -/
def setStringParameter (cfg : Config) (name v : String) : Config :=
  (name, ParamValue.str v) :: cfg

/-- Look a parameter up in a configuration; the most recent setting wins. -/
def getParameter : Config → String → Option ParamValue
  | [], _ => none
  | (k, v) :: rest, name => if k = name then some v else getParameter rest name

/-- The arguments of the Python entry point
`infomax(data, l_rate=None, block=None, w_change=1e-12, anneal_deg=60.,
anneal_step=0.9, extended=False, max_iter=200, cuda=True, verbose=None)`.
The data matrix itself enters only through its shape `(n_samples,
n_features)`, which is passed separately.  Note there is no biasing
argument: the interface does not expose one. -/
structure InfomaxArgs (α : Type) where
  l_rate : Option α := none
  block : Option ℕ := none
  w_change : α
  anneal_deg : α
  anneal_step : α
  extended : Bool := false
  max_iter : ℕ := 200
  verbose : Option Bool := none

/-- The Python default argument values: `w_change=1e-12`, `anneal_deg=60.`,
`anneal_step=0.9`, `extended=False`, `max_iter=200`, `verbose=None`,
with `l_rate` and `block` left unset. -/
def defaultArgs (α : Type) [LinearOrderedField α] : InfomaxArgs α :=
  { w_change := 1 / 10 ^ 12
    anneal_deg := 60
    anneal_step := 9 / 10 }

/-- The wrapper's default learning rate when `l_rate` is `None`:
`0.01 / math.log(n_features ** 2.0)` (natural logarithm). -/
noncomputable def defaultLRate (n_features : ℕ) : ℝ :=
  (1 / 100) / Real.log ((n_features : ℝ) ^ 2)

/-- The wrapper's default block size when `block` is `None`:
`int(math.floor(math.sqrt(n_samples / 3.0)))`. -/
noncomputable def defaultBlock (n_samples : ℕ) : ℕ :=
  ⌊Real.sqrt ((n_samples : ℝ) / 3)⌋₊

/-- The learning rate actually used: the caller's `l_rate` if supplied,
otherwise `defaultLRate`. -/
noncomputable def effectiveLRate (args : InfomaxArgs ℝ) (n_features : ℕ) : ℝ :=
  match args.l_rate with
  | none => defaultLRate n_features
  | some l => l

/-- The block size actually used: the caller's `block` if supplied,
otherwise `defaultBlock`. -/
noncomputable def effectiveBlock (args : InfomaxArgs ℝ) (n_samples : ℕ) : ℕ :=
  match args.block with
  | none => defaultBlock n_samples
  | some b => b

/-- The configuration the wrapper builds and sends to the compute backend,
mirroring the source's call sequence on top of the (unspecified) default
configuration `cfg0` returned by `initDefaultConfig`:
`nchannels`, `nsamples`, `lrate`, `blocksize`, `nochange`, `annealdeg`,
`annealstep`, `maxsteps`, `biasing` (hard-coded 1), `extended`,
`sphering` (hard-coded "off"), and `verbose` (0, only when the caller's
verbose is `None` or `False`). -/
noncomputable def infomaxConfig (cfg0 : Config) (n_samples n_features : ℕ)
    (args : InfomaxArgs ℝ) : Config :=
  let c := setIntParameter cfg0 "nchannels" (n_features : ℤ)
  let c := setIntParameter c "nsamples" (n_samples : ℤ)
  let c := setRealParameter c "lrate" (effectiveLRate args n_features)
  let c := setIntParameter c "blocksize" (effectiveBlock args n_samples : ℤ)
  let c := setRealParameter c "nochange" args.w_change
  let c := setRealParameter c "annealdeg" args.anneal_deg
  let c := setRealParameter c "annealstep" args.anneal_step
  let c := setIntParameter c "maxsteps" (args.max_iter : ℤ)
  let c := setIntParameter c "biasing" 1
  let c := setIntParameter c "extended" (if args.extended then 1 else 0)
  let c := setStringParameter c "sphering" "off"
  if args.verbose = none ∨ args.verbose = some false then
    setIntParameter c "verbose" 0
  else c

/-- Control signal returned by the AnnealController each epoch
(spec §4.4): continue, or one of the two non-error terminal states. -/
inductive Signal where
  | go
  | converged
  | iterLimit
deriving DecidableEq

/-- The configuration fields the training core consumes, plus the
StabilityGuard's consecutive-recovery budget.  The spec calls the budget
"a fixed small number of consecutive times (policy constant)" without
giving its value, so it is kept as a parameter here. -/
structure CoreConfig (α : Type) where
  w_change : α
  anneal_deg : α
  anneal_step : α
  max_iter : ℕ
  budget : ℕ

/-- Modelled from the spec: the result of one full epoch of
block-stochastic gradient work (BlockSampler + GradientStep +
SourceStatisticsEstimator), which is performed by the CUDAICA `process`
routine and is not part of this repository.  It proposes updated `W` and
`b`, reports the mean absolute weight change `delta` and the angle between
successive update directions, and a finiteness flag (`finite = false`
when the update contains non-finite values and must be rejected). -/
structure EpochResult (α : Type) (n : ℕ) where
  W : Matrix (Fin n) (Fin n) α
  b : Fin n → α
  delta : α
  angle : α
  finite : Bool

/-- Modelled from the spec (§3 AnnealState, §4.6 Trainer): the Trainer's
mutable state — current weights `W` and bias `b`, scalar learning rate,
convergence-relevant iteration counter, the last-known-stable snapshot of
`W`/`b`, and the count of consecutive StabilityGuard recoveries. -/
structure TrainerState (α : Type) (n : ℕ) where
  W : Matrix (Fin n) (Fin n) α
  b : Fin n → α
  rate : α
  iter : ℕ
  snapW : Matrix (Fin n) (Fin n) α
  snapB : Fin n → α
  recoveries : ℕ

/-- A terminal state of the Trainer state machine (spec §4.6):
`Converged` and `IterationLimitReached` carry the learned `W`/`b`;
`Divergent` carries nothing — no matrix is returned. -/
inductive Outcome (α : Type) (n : ℕ) where
  | converged (W : Matrix (Fin n) (Fin n) α) (b : Fin n → α)
  | iterLimit (W : Matrix (Fin n) (Fin n) α) (b : Fin n → α)
  | divergent

/-- One Trainer step either continues with a successor state or ends in a
terminal outcome. -/
inductive StepResult (α : Type) (n : ℕ) where
  | next (s : TrainerState α n)
  | done (o : Outcome α n)

/-- Modelled from the spec (§4.4 AnnealController): after a full epoch,
given `delta` (mean absolute per-entry weight change), the angle between
successive update directions, the iteration count and the current rate,
decide in this fixed order: converged when `delta < w_change`; else
iteration limit when the count reached `max_iter`; else anneal the rate by
`anneal_step` when the angle exceeds `anneal_deg`; else continue at the
current rate.  The controller neither receives nor returns `W`. -/
def annealController {α : Type} [LinearOrderedField α] (cfg : CoreConfig α)
    (delta angle : α) (iter : ℕ) (rate : α) : Signal × α :=
  if delta < cfg.w_change then (Signal.converged, rate)
  else if cfg.max_iter ≤ iter then (Signal.iterLimit, rate)
  else if cfg.anneal_deg < angle then (Signal.go, rate * cfg.anneal_step)
  else (Signal.go, rate)

/-- Modelled from the spec (§4.5 StabilityGuard, §4.6 Trainer): one epoch
of the Training state.  Run the epoch; if the update is non-finite, the
StabilityGuard either signals `Divergent` (when the consecutive-recovery
budget is exhausted) or restores `W`/`b` from the last stable snapshot,
halves the rate, and retries without incrementing the iteration counter.
On a finite update the iteration counter advances, the snapshot moves to
the new stable `W`/`b`, the consecutive-recovery count resets, and the
AnnealController decides the transition. -/
def trainerStep {α : Type} [LinearOrderedField α] {n : ℕ} (cfg : CoreConfig α)
    (oracle : TrainerState α n → EpochResult α n) (s : TrainerState α n) :
    StepResult α n :=
  let r := oracle s
  if r.finite then
    match annealController cfg r.delta r.angle (s.iter + 1) s.rate with
    | (Signal.converged, _) => StepResult.done (Outcome.converged r.W r.b)
    | (Signal.iterLimit, _) => StepResult.done (Outcome.iterLimit r.W r.b)
    | (Signal.go, rate') =>
        StepResult.next
          { W := r.W, b := r.b, rate := rate', iter := s.iter + 1,
            snapW := r.W, snapB := r.b, recoveries := 0 }
  else
    if cfg.budget ≤ s.recoveries then
      StepResult.done Outcome.divergent
    else
      StepResult.next
        { s with W := s.snapW, b := s.snapB, rate := s.rate / 2,
                 recoveries := s.recoveries + 1 }

/-- Fuel-indexed training loop: iterate `trainerStep` until a terminal
outcome, or `none` when the fuel runs out (shown below never to happen
for the fuel `trainerRun` supplies). -/
def trainerLoop {α : Type} [LinearOrderedField α] {n : ℕ} (cfg : CoreConfig α)
    (oracle : TrainerState α n → EpochResult α n) :
    ℕ → TrainerState α n → Option (Outcome α n)
  | 0, _ => none
  | fuel + 1, s =>
      match trainerStep cfg oracle s with
      | StepResult.next s' => trainerLoop cfg oracle fuel s'
      | StepResult.done o => some o

/-- Modelled from the spec (§4.6 Initializing): seed `W` with the
identity, `b` with zero, the rate with the initial learning rate, and
snapshot this as the last-stable state. -/
def initState {α : Type} [LinearOrderedField α] (n : ℕ) (l0 : α) :
    TrainerState α n :=
  { W := 1, b := 0, rate := l0, iter := 0, snapW := 1, snapB := 0,
    recoveries := 0 }

/-- Termination measure of the training loop: lexicographic in the
remaining iterations and the remaining recovery budget. -/
def trainerMeasure {α : Type} {n : ℕ} (cfg : CoreConfig α)
    (s : TrainerState α n) : ℕ :=
  (cfg.max_iter - s.iter) * (cfg.budget + 2) + (cfg.budget + 1 - s.recoveries)

/-- A full training run from the initial state, with fuel strictly larger
than the initial measure. -/
def trainerRun {α : Type} [LinearOrderedField α] {n : ℕ} (cfg : CoreConfig α)
    (oracle : TrainerState α n → EpochResult α n) (l0 : α) :
    Option (Outcome α n) :=
  trainerLoop cfg oracle (cfg.max_iter * (cfg.budget + 2) + cfg.budget + 2)
    (initState n l0)

/-- The observable operations the wrapper performs, in source order:
device selection, default-config creation, each parameter setting (by
name), the configuration check, config printing, data transfer to the
device, preprocessing, the main ICA training, postprocessing, and the
weight transfer back. -/
inductive Event where
  | selectDevice
  | initConfig
  | setParam (name : String)
  | checkConfig
  | printConfigE
  | transferData
  | preprocessE
  | processE
  | postprocessE
  | transferWeights
deriving DecidableEq

/-- Configuration work: default-config creation and parameter setting. -/
def Event.isConfigWork : Event → Bool
  | Event.initConfig => true
  | Event.setParam _ => true
  | _ => false

/-- The operations the wrapper performs before (and including) the
configuration check `checkDefaultConfig`, in source order: the `verbose`
parameter is set only when the caller's verbose is `None` or `False`. -/
def setupEvents (verbose : Option Bool) : List Event :=
  [Event.selectDevice, Event.initConfig,
   Event.setParam "nchannels", Event.setParam "nsamples",
   Event.setParam "lrate", Event.setParam "blocksize",
   Event.setParam "nochange", Event.setParam "annealdeg",
   Event.setParam "annealstep", Event.setParam "maxsteps",
   Event.setParam "biasing", Event.setParam "extended",
   Event.setParam "sphering"]
  ++ (if verbose = none ∨ verbose = some false then
        [Event.setParam "verbose"] else [])
  ++ [Event.checkConfig]

/-- The wrapper's error outcomes: an invalid data shape (fewer samples
than features) rejected by the configuration check, or training that
could not stabilize. -/
inductive ICAError where
  | invalidShape
  | divergent
deriving DecidableEq

/-- The core configuration the wrapper's parameters induce. -/
def wrapperCoreConfig (args : InfomaxArgs ℝ) (budget : ℕ) : CoreConfig ℝ :=
  { w_change := args.w_change, anneal_deg := args.anneal_deg,
    anneal_step := args.anneal_step, max_iter := args.max_iter,
    budget := budget }

/-- The wrapper's full run: the sequence of performed operations paired
with its result.  The shape validation is modelled from the spec:
`checkDefaultConfig` (not part of this repository) validates
`n_samples ≥ n_features` and fails with `InvalidShape`; on failure the
wrapper stops at the check, before printing, data transfer or any
training work.  Otherwise `process` runs the Trainer; a `Divergent`
outcome raises during `process` (no matrix is returned), while the two
non-error terminal outcomes continue through `postprocess` and
`transferWeightsFrom`, and the wrapper returns `wts.T` — the transposed
weight matrix.  The `none` branch of the training loop is unreachable:
`trainerRun`'s fuel exceeds the loop measure (see
`trainerLoop_total_of_measure_lt`). -/
noncomputable def infomaxTrace (budget n_samples n_features : ℕ)
    (oracle : TrainerState ℝ n_features → EpochResult ℝ n_features)
    (args : InfomaxArgs ℝ) :
    List Event × Except ICAError (Matrix (Fin n_features) (Fin n_features) ℝ) :=
  let pre := setupEvents args.verbose
  if n_samples < n_features then
    (pre, Except.error ICAError.invalidShape)
  else
    match trainerRun (wrapperCoreConfig args budget) oracle
        (effectiveLRate args n_features) with
    | some (Outcome.converged W _b) =>
        (pre ++ [Event.printConfigE, Event.transferData, Event.preprocessE,
                 Event.processE, Event.postprocessE, Event.transferWeights],
         Except.ok W.transpose)
    | some (Outcome.iterLimit W _b) =>
        (pre ++ [Event.printConfigE, Event.transferData, Event.preprocessE,
                 Event.processE, Event.postprocessE, Event.transferWeights],
         Except.ok W.transpose)
    | some Outcome.divergent =>
        (pre ++ [Event.printConfigE, Event.transferData, Event.preprocessE,
                 Event.processE],
         Except.error ICAError.divergent)
    | none =>
        (pre, Except.error ICAError.divergent)

/-- The wrapper's returned value: the result component of its run. -/
noncomputable def infomax (budget n_samples n_features : ℕ)
    (oracle : TrainerState ℝ n_features → EpochResult ℝ n_features)
    (args : InfomaxArgs ℝ) :
    Except ICAError (Matrix (Fin n_features) (Fin n_features) ℝ) :=
  (infomaxTrace budget n_samples n_features oracle args).2

/-- A benign epoch oracle: keeps `W`/`b`, reports zero weight change and
zero angle, with a finite update. -/
def constOracle (n : ℕ) : TrainerState ℝ n → EpochResult ℝ n :=
  fun s => { W := s.W, b := s.b, delta := 0, angle := 0, finite := true }

/-- An epoch oracle over ℚ whose update is always non-finite, driving the
StabilityGuard. -/
def nanOracle (n : ℕ) : TrainerState ℚ n → EpochResult ℚ n :=
  fun s => { W := s.W, b := s.b, delta := 0, angle := 0, finite := false }

/-- An epoch oracle over ℚ with a finite update that keeps `W`/`b` and
reports a weight change of 2 at angle 0. -/
def calmOracle (n : ℕ) : TrainerState ℚ n → EpochResult ℚ n :=
  fun s => { W := s.W, b := s.b, delta := 2, angle := 0, finite := true }

/-- A small concrete core configuration over ℚ used to exercise the
training core on explicit inputs. -/
def sampleCoreConfig : CoreConfig ℚ :=
  { w_change := 1, anneal_deg := 60, anneal_step := 9 / 10, max_iter := 5,
    budget := 3 }

theorem trainerStep_measure_lt {α : Type} [LinearOrderedField α] {n : ℕ}
    (cfg : CoreConfig α) (oracle : TrainerState α n → EpochResult α n)
    (s s' : TrainerState α n)
    (h : trainerStep cfg oracle s = StepResult.next s') :
    trainerMeasure cfg s' < trainerMeasure cfg s := by
  unfold trainerStep at h
  by_cases hf : (oracle s).finite = true
  · simp only [hf, if_true] at h
    rcases hA : annealController cfg (oracle s).delta (oracle s).angle
        (s.iter + 1) s.rate with ⟨sig, rate'⟩
    rw [hA] at h
    cases sig with
    | converged => exact absurd h (by simp)
    | iterLimit => exact absurd h (by simp)
    | go =>
        have hiter : s.iter + 1 < cfg.max_iter := by
          unfold annealController at hA
          split_ifs at hA with h1 h2 h3 <;> first | omega | simp at hA
        injection h with h'
        subst h'
        simp only [trainerMeasure]
        have hsub : cfg.max_iter - s.iter = (cfg.max_iter - (s.iter + 1)) + 1 :=
          by omega
        rw [hsub, add_mul, one_mul]
        generalize (cfg.max_iter - (s.iter + 1)) * (cfg.budget + 2) = P
        omega
  · rw [if_neg hf] at h
    split_ifs at h with hb
    injection h with h'
    subst h'
    simp only [trainerMeasure]
    generalize (cfg.max_iter - s.iter) * (cfg.budget + 2) = P
    omega

theorem trainerLoop_total_of_measure_lt {α : Type} [LinearOrderedField α]
    {n : ℕ} (cfg : CoreConfig α)
    (oracle : TrainerState α n → EpochResult α n) :
    ∀ (fuel : ℕ) (s : TrainerState α n), trainerMeasure cfg s < fuel →
      ∃ o, trainerLoop cfg oracle fuel s = some o := by
  intro fuel
  induction fuel with
  | zero => intro s hs; exact absurd hs (Nat.not_lt_zero _)
  | succ m ih =>
      intro s hs
      rcases hstep : trainerStep cfg oracle s with s' | o
      · have hm : trainerMeasure cfg s' < m := by
          have := trainerStep_measure_lt cfg oracle s s' hstep
          omega
        obtain ⟨o, ho⟩ := ih s' hm
        exact ⟨o, by rw [trainerLoop, hstep]; exact ho⟩
      · exact ⟨o, by rw [trainerLoop, hstep]⟩

theorem trainerLoop_done_of_pos {α : Type} [LinearOrderedField α] {n : ℕ}
    (cfg : CoreConfig α) (oracle : TrainerState α n → EpochResult α n)
    (s : TrainerState α n) (o : Outcome α n) (fuel : ℕ) (hf : 0 < fuel)
    (hstep : trainerStep cfg oracle s = StepResult.done o) :
    trainerLoop cfg oracle fuel s = some o := by
  cases fuel with
  | zero => omega
  | succ m => rw [trainerLoop, hstep]

theorem trainerRun_total {α : Type} [LinearOrderedField α] {n : ℕ}
    (cfg : CoreConfig α) (oracle : TrainerState α n → EpochResult α n)
    (l0 : α) : ∃ o, trainerRun cfg oracle l0 = some o := by
  apply trainerLoop_total_of_measure_lt
  simp only [trainerMeasure, initState, Nat.sub_zero]
  generalize cfg.max_iter * (cfg.budget + 2) = P
  omega

/-- C2: whenever the caller leaves `l_rate` unset, the learning rate the
wrapper configures is exactly `0.01` divided by the natural logarithm of
`n_features` squared. -/
theorem infomax_default_lrate (cfg0 : Config) (n_samples n_features : ℕ)
    (args : InfomaxArgs ℝ) (h : args.l_rate = none) :
    getParameter (infomaxConfig cfg0 n_samples n_features args) "lrate"
      = some (ParamValue.real ((1 / 100) / Real.log ((n_features : ℝ) ^ 2))) := by
  by_cases hv : args.verbose = none ∨ args.verbose = some false <;>
    simp [infomaxConfig, setIntParameter, setRealParameter, setStringParameter,
      getParameter, hv, effectiveLRate, defaultLRate, h]

/-- Closed instance of `infomax_default_lrate`: with the default arguments
(`l_rate` unset) and 4 features, the configured learning rate is
`0.01 / ln(4²)`. -/
theorem infomax_default_lrate_witness :
    getParameter (infomaxConfig [] 100 4 (defaultArgs ℝ)) "lrate"
      = some (ParamValue.real ((1 / 100) / Real.log (((4 : ℕ) : ℝ) ^ 2))) :=
  infomax_default_lrate [] 100 4 (defaultArgs ℝ) rfl

/-- C3: whenever the caller leaves `block` unset, the block size the
wrapper configures is exactly `⌊√(n_samples / 3)⌋`. -/
theorem infomax_default_block (cfg0 : Config) (n_samples n_features : ℕ)
    (args : InfomaxArgs ℝ) (h : args.block = none) :
    getParameter (infomaxConfig cfg0 n_samples n_features args) "blocksize"
      = some (ParamValue.int (⌊Real.sqrt ((n_samples : ℝ) / 3)⌋₊ : ℤ)) := by
  by_cases hv : args.verbose = none ∨ args.verbose = some false <;>
    simp [infomaxConfig, setIntParameter, setRealParameter, setStringParameter,
      getParameter, hv, effectiveBlock, defaultBlock, h]

/-- Closed instance of `infomax_default_block`: with the default arguments
(`block` unset) and 48 samples, the configured block size is
`⌊√(48/3)⌋ = ⌊√16⌋ = 4`. -/
theorem infomax_default_block_witness :
    getParameter (infomaxConfig [] 48 4 (defaultArgs ℝ)) "blocksize"
      = some (ParamValue.int 4) := by
  have h := infomax_default_block [] 48 4 (defaultArgs ℝ) rfl
  have h16 : ((48 : ℕ) : ℝ) / 3 = 16 := by norm_num
  have hs : Real.sqrt 16 = 4 := by
    rw [show (16 : ℝ) = 4 ^ 2 by norm_num,
      Real.sqrt_sq (by norm_num : (0 : ℝ) ≤ 4)]
  rw [h16, hs] at h
  simpa using h

/-- C9: for every call, the configuration sent to the compute backend has
pre-whitening/sphering disabled: the `sphering` parameter is the string
`"off"`. -/
theorem infomax_sphering_off (cfg0 : Config) (n_samples n_features : ℕ)
    (args : InfomaxArgs ℝ) :
    getParameter (infomaxConfig cfg0 n_samples n_features args) "sphering"
      = some (ParamValue.str "off") := by
  by_cases hv : args.verbose = none ∨ args.verbose = some false <;>
    simp [infomaxConfig, setIntParameter, setRealParameter, setStringParameter,
      getParameter, hv]

/-- C10: for every call — `InfomaxArgs` exposes no biasing argument — the
wrapper unconditionally sets the integer `biasing` parameter to 1. -/
theorem infomax_biasing_always_one (cfg0 : Config) (n_samples n_features : ℕ)
    (args : InfomaxArgs ℝ) :
    getParameter (infomaxConfig cfg0 n_samples n_features args) "biasing"
      = some (ParamValue.int 1) := by
  by_cases hv : args.verbose = none ∨ args.verbose = some false <;>
    simp [infomaxConfig, setIntParameter, setRealParameter, setStringParameter,
      getParameter, hv]

/-- C1 counterexample: at the concrete input `n_samples = 1 <
n_features = 2` the wrapper does fail with `InvalidShape`, but only at
the configuration check — configuration work (the default configuration
and the parameter settings) has already been performed by then, so the
failure does not come before all configuration work. -/
theorem infomax_invalidShape_after_config_work :
    infomax 3 1 2 (constOracle 2) (defaultArgs ℝ)
        = Except.error ICAError.invalidShape
    ∧ ((infomaxTrace 3 1 2 (constOracle 2) (defaultArgs ℝ)).1.any
        Event.isConfigWork) = true := by
  constructor
  · simp [infomax, infomaxTrace]
  · simp [infomaxTrace, setupEvents, defaultArgs, Event.isConfigWork]

/-- C1 (amended): whenever `n_samples < n_features`, the wrapper fails
with `InvalidShape` at the configuration check — after the configuration
has been built, but before config printing, data transfer, preprocessing
or any training computation happens. -/
theorem infomax_invalidShape_before_numeric_work (budget S F : ℕ)
    (oracle : TrainerState ℝ F → EpochResult ℝ F) (args : InfomaxArgs ℝ)
    (h : S < F) :
    infomax budget S F oracle args = Except.error ICAError.invalidShape
    ∧ Event.transferData ∉ (infomaxTrace budget S F oracle args).1
    ∧ Event.preprocessE ∉ (infomaxTrace budget S F oracle args).1
    ∧ Event.processE ∉ (infomaxTrace budget S F oracle args).1 := by
  by_cases hv : args.verbose = none ∨ args.verbose = some false <;>
    simp [infomax, infomaxTrace, setupEvents, h, hv]

/-- Closed instance of `infomax_invalidShape_before_numeric_work` at
`n_samples = 1 < n_features = 2`. -/
theorem infomax_invalidShape_before_numeric_work_witness :
    infomax 3 1 2 (constOracle 2) (defaultArgs ℝ)
        = Except.error ICAError.invalidShape
    ∧ Event.transferData ∉ (infomaxTrace 3 1 2 (constOracle 2)
        (defaultArgs ℝ)).1 := by
  have h := infomax_invalidShape_before_numeric_work 3 1 2 (constOracle 2)
    (defaultArgs ℝ) (by norm_num)
  exact ⟨h.1, h.2.1⟩

/-- C4: for a valid shape, when training ends `Converged` or
`IterationLimitReached` the wrapper returns the learned weight matrix
transposed (`wts.T`, an `n_features × n_features` matrix); when training
ends `Divergent` no matrix is returned and an error is reported. -/
theorem infomax_terminal_returns (budget S F : ℕ)
    (oracle : TrainerState ℝ F → EpochResult ℝ F) (args : InfomaxArgs ℝ)
    (hSF : F ≤ S) :
    (∀ (W : Matrix (Fin F) (Fin F) ℝ) (b : Fin F → ℝ),
      trainerRun (wrapperCoreConfig args budget) oracle
          (effectiveLRate args F) = some (Outcome.converged W b) →
        infomax budget S F oracle args = Except.ok W.transpose)
    ∧ (∀ (W : Matrix (Fin F) (Fin F) ℝ) (b : Fin F → ℝ),
      trainerRun (wrapperCoreConfig args budget) oracle
          (effectiveLRate args F) = some (Outcome.iterLimit W b) →
        infomax budget S F oracle args = Except.ok W.transpose)
    ∧ (trainerRun (wrapperCoreConfig args budget) oracle
          (effectiveLRate args F) = some Outcome.divergent →
        infomax budget S F oracle args = Except.error ICAError.divergent) := by
  have hns : ¬ S < F := not_lt.mpr hSF
  refine ⟨fun W b hT => ?_, fun W b hT => ?_, fun hT => ?_⟩ <;>
    simp [infomax, infomaxTrace, hns, hT]

/-- Closed instance of `infomax_terminal_returns`: with a benign oracle
whose first epoch already has `delta = 0 < w_change`, training converges
with `W = 1` and the wrapper returns the transpose of `1`. -/
theorem infomax_terminal_returns_witness :
    infomax 0 2 1 (constOracle 1) (defaultArgs ℝ)
      = Except.ok (Matrix.transpose (1 : Matrix (Fin 1) (Fin 1) ℝ)) := by
  have hstep : trainerStep (wrapperCoreConfig (defaultArgs ℝ) 0) (constOracle 1)
      (initState 1 (effectiveLRate (defaultArgs ℝ) 1))
      = StepResult.done (Outcome.converged 1 0) := by
    simp only [trainerStep, constOracle, annealController, initState,
      wrapperCoreConfig, defaultArgs]
    norm_num
  have hrun : trainerRun (wrapperCoreConfig (defaultArgs ℝ) 0) (constOracle 1)
      (effectiveLRate (defaultArgs ℝ) 1) = some (Outcome.converged 1 0) := by
    unfold trainerRun
    exact trainerLoop_done_of_pos _ _ _ _ _ (by positivity) hstep
  exact (infomax_terminal_returns 0 2 1 (constOracle 1) (defaultArgs ℝ)
    (by norm_num)).1 1 0 hrun

/-- C5: after each epoch the AnnealController decides in this fixed
order — `delta < w_change` signals Converged; otherwise an iteration
count at `max_iter` signals IterationLimitReached; otherwise an angle
above `anneal_deg` multiplies the rate by `anneal_step`; otherwise it
continues at the current rate.  And it never mutates `W`: whenever the
Trainer continues, the weights of the successor state are exactly the
epoch result's weights, whatever the controller decided. -/
theorem annealController_decision_order {α : Type} [LinearOrderedField α]
    (cfg : CoreConfig α) (delta angle : α) (iter : ℕ) (rate : α) :
    (delta < cfg.w_change →
      annealController cfg delta angle iter rate = (Signal.converged, rate))
    ∧ (¬ delta < cfg.w_change → cfg.max_iter ≤ iter →
      annealController cfg delta angle iter rate = (Signal.iterLimit, rate))
    ∧ (¬ delta < cfg.w_change → iter < cfg.max_iter → cfg.anneal_deg < angle →
      annealController cfg delta angle iter rate
        = (Signal.go, rate * cfg.anneal_step))
    ∧ (¬ delta < cfg.w_change → iter < cfg.max_iter → ¬ cfg.anneal_deg < angle →
      annealController cfg delta angle iter rate = (Signal.go, rate))
    ∧ (∀ (n : ℕ) (oracle : TrainerState α n → EpochResult α n)
        (s s' : TrainerState α n), (oracle s).finite = true →
        trainerStep cfg oracle s = StepResult.next s' → s'.W = (oracle s).W) := by
  refine ⟨fun h1 => ?_, fun h1 h2 => ?_, fun h1 h2 h3 => ?_,
    fun h1 h2 h3 => ?_, fun n oracle s s' hf h => ?_⟩
  · simp [annealController, h1]
  · simp [annealController, h1, h2]
  · simp [annealController, h1, not_le.mpr h2, h3]
  · simp [annealController, h1, not_le.mpr h2, h3]
  · unfold trainerStep at h
    simp only [hf, if_true] at h
    rcases hA : annealController cfg (oracle s).delta (oracle s).angle
        (s.iter + 1) s.rate with ⟨sig, rate'⟩
    rw [hA] at h
    cases sig with
    | converged => exact absurd h (by simp)
    | iterLimit => exact absurd h (by simp)
    | go =>
        injection h with h'
        subst h'
        rfl

/-- Closed instances of `annealController_decision_order` over ℚ: one
explicit input per decision branch, and one explicit continuing Trainer
step whose weights equal the epoch result's weights. -/
theorem annealController_decision_order_witness :
    (annealController sampleCoreConfig 0 0 1 1 = (Signal.converged, 1))
    ∧ (annealController sampleCoreConfig 2 0 5 1 = (Signal.iterLimit, 1))
    ∧ (annealController sampleCoreConfig 2 90 1 1
        = (Signal.go, 1 * sampleCoreConfig.anneal_step))
    ∧ (annealController sampleCoreConfig 2 0 1 1 = (Signal.go, 1))
    ∧ ({ W := 1, b := 0, rate := 1, iter := 1, snapW := 1, snapB := 0,
          recoveries := 0 } : TrainerState ℚ 1).W
        = (calmOracle 1 (initState 1 (1 : ℚ))).W := by
  refine ⟨(annealController_decision_order sampleCoreConfig 0 0 1 1).1
      (by norm_num [sampleCoreConfig]),
    (annealController_decision_order sampleCoreConfig 2 0 5 1).2.1
      (by norm_num [sampleCoreConfig]) (by norm_num [sampleCoreConfig]),
    (annealController_decision_order sampleCoreConfig 2 90 1 1).2.2.1
      (by norm_num [sampleCoreConfig]) (by norm_num [sampleCoreConfig])
      (by norm_num [sampleCoreConfig]),
    (annealController_decision_order sampleCoreConfig 2 0 1 1).2.2.2.1
      (by norm_num [sampleCoreConfig]) (by norm_num [sampleCoreConfig])
      (by norm_num [sampleCoreConfig]),
    (annealController_decision_order sampleCoreConfig 2 0 1 1).2.2.2.2 1
      (calmOracle 1) (initState 1 (1 : ℚ)) _ rfl rfl⟩

/-- C6: the learning rate never increases from one epoch to the next —
annealing multiplies it by the reduction factor `anneal_step` and a
StabilityGuard recovery halves it — and it stays nonnegative. -/
theorem trainerStep_rate_nonincreasing {α : Type} [LinearOrderedField α]
    {n : ℕ} (cfg : CoreConfig α)
    (oracle : TrainerState α n → EpochResult α n) (s s' : TrainerState α n)
    (hstep0 : 0 ≤ cfg.anneal_step) (hstep1 : cfg.anneal_step ≤ 1)
    (hrate : 0 ≤ s.rate)
    (h : trainerStep cfg oracle s = StepResult.next s') :
    s'.rate ≤ s.rate ∧ 0 ≤ s'.rate := by
  unfold trainerStep at h
  by_cases hf : (oracle s).finite = true
  · simp only [hf, if_true] at h
    rcases hA : annealController cfg (oracle s).delta (oracle s).angle
        (s.iter + 1) s.rate with ⟨sig, rate'⟩
    rw [hA] at h
    cases sig with
    | converged => exact absurd h (by simp)
    | iterLimit => exact absurd h (by simp)
    | go =>
        injection h with h'
        subst h'
        have hrate' : rate' = s.rate * cfg.anneal_step ∨ rate' = s.rate := by
          unfold annealController at hA
          split_ifs at hA <;> simp_all
        rcases hrate' with hr | hr <;> subst hr
        · exact ⟨mul_le_of_le_one_right hrate hstep1,
            mul_nonneg hrate hstep0⟩
        · exact ⟨le_refl _, hrate⟩
  · rw [if_neg hf] at h
    split_ifs at h with hb
    injection h with h'
    subst h'
    exact ⟨half_le_self hrate, by positivity⟩

/-- Closed instance of `trainerStep_rate_nonincreasing` over ℚ: a
StabilityGuard recovery step from rate 1 continues at rate 1/2 ≤ 1. -/
theorem trainerStep_rate_nonincreasing_witness :
    trainerStep sampleCoreConfig (nanOracle 1) (initState 1 (1 : ℚ))
      = StepResult.next
        ({ W := 1, b := 0, rate := 1 / 2, iter := 0, snapW := 1, snapB := 0,
           recoveries := 1 } : TrainerState ℚ 1)
    ∧ ({ W := 1, b := 0, rate := 1 / 2, iter := 0, snapW := 1, snapB := 0,
          recoveries := 1 } : TrainerState ℚ 1).rate
        ≤ (initState 1 (1 : ℚ)).rate := by
  refine ⟨rfl, ?_⟩
  exact (trainerStep_rate_nonincreasing sampleCoreConfig (nanOracle 1)
    (initState 1 (1 : ℚ)) _ (by norm_num [sampleCoreConfig])
    (by norm_num [sampleCoreConfig]) (by norm_num [initState]) rfl).1

/-- C7: for every valid input shape (`n_features ≤ n_samples`) and every
epoch oracle, the training run invoked by the wrapper terminates in a
terminal `Outcome` (one of Converged, IterationLimitReached, Divergent —
the only constructors of `Outcome`); the loop's fuel, fixed from
`max_iter` and the recovery budget, is never exhausted. -/
theorem trainerRun_terminates (budget S F : ℕ)
    (oracle : TrainerState ℝ F → EpochResult ℝ F) (args : InfomaxArgs ℝ)
    (_hSF : F ≤ S) :
    ∃ o : Outcome ℝ F, trainerRun (wrapperCoreConfig args budget) oracle
      (effectiveLRate args F) = some o :=
  trainerRun_total (wrapperCoreConfig args budget) oracle
    (effectiveLRate args F)

/-- Closed instance of `trainerRun_terminates` at a concrete valid
shape: the run produces a terminal outcome. -/
theorem trainerRun_terminates_witness :
    (trainerRun (wrapperCoreConfig (defaultArgs ℝ) 0) (constOracle 1)
      (effectiveLRate (defaultArgs ℝ) 1)).isSome = true := by
  obtain ⟨o, ho⟩ :=
    trainerRun_terminates 0 2 1 (constOracle 1) (defaultArgs ℝ) (by norm_num)
  rw [ho]
  rfl

/-- C8: when an epoch's update is non-finite, the StabilityGuard restores
`W`/`b` from the last-known-stable snapshot, halves the learning rate,
increments only the consecutive-recovery count — the convergence-relevant
iteration counter and the snapshot are untouched — and resumes; but once
the recovery has been triggered more than the budget allows
consecutively, training ends in the `Divergent` terminal failure, which
carries no matrix. -/
theorem stabilityGuard_recovery {α : Type} [LinearOrderedField α] {n : ℕ}
    (cfg : CoreConfig α) (oracle : TrainerState α n → EpochResult α n)
    (s : TrainerState α n) (hnf : (oracle s).finite = false) :
    (s.recoveries < cfg.budget →
      trainerStep cfg oracle s = StepResult.next
        { s with W := s.snapW, b := s.snapB, rate := s.rate / 2,
                 recoveries := s.recoveries + 1 })
    ∧ (cfg.budget ≤ s.recoveries →
      trainerStep cfg oracle s = StepResult.done Outcome.divergent) := by
  have hf : ¬ (oracle s).finite = true := by simp [hnf]
  constructor
  · intro hb
    unfold trainerStep
    rw [if_neg hf, if_neg (not_le.mpr hb)]
  · intro hb
    unfold trainerStep
    rw [if_neg hf, if_pos hb]

/-- Closed instances of `stabilityGuard_recovery` over ℚ: a first
non-finite epoch from the initial state recovers (restored snapshot,
halved rate, same iteration counter), and a non-finite epoch with the
recovery budget exhausted ends `Divergent`. -/
theorem stabilityGuard_recovery_witness :
    trainerStep sampleCoreConfig (nanOracle 1) (initState 1 (1 : ℚ))
      = StepResult.next
        ({ W := 1, b := 0, rate := 1 / 2, iter := 0, snapW := 1, snapB := 0,
           recoveries := 1 } : TrainerState ℚ 1)
    ∧ trainerStep sampleCoreConfig (nanOracle 1)
        ({ W := 1, b := 0, rate := 1 / 8, iter := 0, snapW := 1, snapB := 0,
           recoveries := 3 } : TrainerState ℚ 1)
      = StepResult.done Outcome.divergent := by
  constructor
  · exact (stabilityGuard_recovery sampleCoreConfig (nanOracle 1)
      (initState 1 (1 : ℚ)) rfl).1 (by norm_num [sampleCoreConfig, initState])
  · exact (stabilityGuard_recovery sampleCoreConfig (nanOracle 1) _ rfl).2
      (by norm_num [sampleCoreConfig])
